import Mathlib

/-!
# Verification of the isit roster-normalization pipeline

Shallow embedding of `src/main.rs`: the two source record shapes
(`RecordSchild`, `RecordGastschueler`), their normalization into
`RecordIserv`, the passphrase construction configured in
`RecordIserv::new`, the row-collection loops of
`get_all_csv_records_in_file` / `get_all_xlsx_records_in_file`, the
output serialization of `write_records_to_file`, and the control flow
of `main`.

Rust strings are modelled as Lean `String` (a list of Unicode
characters); byte-level operations (`&s[1..]`) are modelled through
the UTF-8 size of the leading character.  Rust panics are modelled as
the `error` side of an `Except RustPanic` value, since a panic aborts
the surrounding computation.
-/

deriving instance DecidableEq for Except

/-- Outcomes of Rust operations that panic: byte-slicing an empty
string at index 1, slicing inside a multi-byte character, `Vec`
indexing out of bounds, and `Result::unwrap` on an `Err`. -/
inductive RustPanic where
  | byteIndexOutOfBounds
  | notCharBoundary
  | indexOutOfBounds
  | unwrapOnErr
deriving DecidableEq, Repr

/-- Error categories that travel through `Result` values in the
program: a row that fails to deserialize, a workbook that fails to
open, and a failed output write.  The payloads of the Rust errors are
irrelevant to control flow and are dropped. -/
inductive PipeError where
  | rowDecode
  | sourceOpenXlsx
  | outputWrite
deriving DecidableEq, Repr

/-- Number of bytes of the UTF-8 encoding of a character. -/
def charBytes (c : Char) : Nat :=
  if c.val < 0x80 then 1
  else if c.val < 0x800 then 2
  else if c.val < 0x10000 then 3
  else 4

/-- `isPrefixOfChars p l` holds when the character list `p` is a
prefix of `l`; models Rust `str::starts_with` (byte prefix of UTF-8
text by a whole pattern string is the same as character prefix). -/
def isPrefixOfChars : List Char → List Char → Bool
  | [], _ => true
  | _ :: _, [] => false
  | a :: as, b :: bs => a == b && isPrefixOfChars as bs

/-- Rust `s.starts_with(p)`. -/
def startsWithStr (s p : String) : Bool :=
  isPrefixOfChars p.data s.data

/-- Rust `s.split(", ")` on the character level: splits at every
(leftmost, non-overlapping) occurrence of the two-character separator
`", "`.  Always returns at least one part; the empty string yields
`[[]]`, as in Rust. -/
def splitSep : List Char → List (List Char)
  | [] => [[]]
  | ',' :: ' ' :: rest => [] :: splitSep rest
  | c :: rest =>
    match splitSep rest with
    | p :: ps => (c :: p) :: ps
    | [] => [[c]]

/-- Rust `record.name.split(", ").collect::<Vec<&str>>()`. -/
def splitComma (s : String) : List String :=
  (splitSep s.data).map (fun l => ⟨l⟩)

/-- Rust `s.split(" (G)")` on the character level: splits at every
(leftmost, non-overlapping) occurrence of the four-character
separator `" (G)"`. -/
def splitG : List Char → List (List Char)
  | [] => [[]]
  | ' ' :: '(' :: 'G' :: ')' :: rest => [] :: splitG rest
  | c :: rest =>
    match splitG rest with
    | p :: ps => (c :: p) :: ps
    | [] => [[c]]

/-- Removal of every (leftmost, non-overlapping) occurrence of
`" (G)"` from a character list; the specification-level description
of what splitting on `" (G)"` and concatenating the parts does. -/
def removeAllG : List Char → List Char
  | [] => []
  | ' ' :: '(' :: 'G' :: ')' :: rest => removeAllG rest
  | c :: rest => c :: removeAllG rest

/-- Rust `String::from(&s[1..])`: panics when `s` is empty (byte
index 1 out of bounds) or when the first character occupies more than
one byte (byte 1 is not a character boundary); otherwise drops the
first character. -/
def sliceFrom1 (s : String) : Except RustPanic String :=
  match s.data with
  | [] => .error .byteIndexOutOfBounds
  | c :: rest =>
    if charBytes c = 1 then .ok ⟨rest⟩ else .error .notCharBoundary

/-- Rust `Vec` indexing `v[i]`: panics when out of bounds. -/
def vecIndex {α : Type} (l : List α) (i : Nat) : Except RustPanic α :=
  match l[i]? with
  | some a => .ok a
  | none => .error .indexOutOfBounds

/-- Modelled from the spec: the word corpus `res/words.txt` is not
under `src/`, so the corpus is a parameter (`§2`: a static list of
candidate words used as passphrase building blocks). The `chbs`
passphrase scheme (also outside `src/`) selects `wordCount` words
from the corpus — `choice` stands for the random draws — and joins
them with the separator, with no capitalization transformation
(`§4.1`), matching the configuration set in `RecordIserv::new`
(`capitalize_first = Probability::Never`). -/
def generatePassphrase (corpus : List String) (wordCount : Nat)
    (sep : String) (choice : Fin wordCount → Fin corpus.length) : String :=
  String.intercalate sep (List.ofFn fun i => corpus.get (choice i))

/-- The password built in `RecordIserv::new`: `config.words = 2`,
`config.separator = "-"`. -/
def isitPassword (corpus : List String)
    (choice : Fin 2 → Fin corpus.length) : String :=
  generatePassphrase corpus 2 "-" choice

/-- `RecordSchild` (`#[serde(rename_all = "PascalCase")]`): surname,
given name, class group label, and the GUID column. -/
structure RecordSchild where
  nachname : String
  vorname : String
  klasse : String
  guid : String
deriving DecidableEq, Repr

/-- `RecordGastschueler` (`#[serde(rename_all = "UPPERCASE")]`): the
combined `"NAME, VORNAME"` column, the class column, and the student
number column `SCHÜLERNR`. -/
structure RecordGastschueler where
  name : String
  klasse : String
  schuelernr : String
deriving DecidableEq, Repr

/-- The canonical output record `RecordIserv`. -/
structure RecordIserv where
  nachname : String
  vorname : String
  klasse : String
  import_id : String
  password : String
deriving DecidableEq, Repr

/-- The tagged union `Record` over the two source shapes. -/
inductive Record where
  | schild (r : RecordSchild)
  | gastschueler (r : RecordGastschueler)
deriving DecidableEq, Repr

/-- `RecordIserv::new`: stores the four given fields and attaches a
freshly generated password. -/
def RecordIserv.new (corpus : List String)
    (choice : Fin 2 → Fin corpus.length)
    (nachname vorname klasse import_id : String) : RecordIserv :=
  { nachname := nachname, vorname := vorname, klasse := klasse,
    import_id := import_id, password := isitPassword corpus choice }

/-- `impl From<RecordSchild> for RecordIserv`: bucket `klasse` by the
prefixes `"11"`, `"12"`, `"13"`; pass the other fields through. -/
def schildToIserv (corpus : List String)
    (choice : Fin 2 → Fin corpus.length) (r : RecordSchild) : RecordIserv :=
  let klasse :=
    if startsWithStr r.klasse "11" then "11"
    else if startsWithStr r.klasse "12" then "12"
    else if startsWithStr r.klasse "13" then "13"
    else r.klasse
  RecordIserv.new corpus choice r.nachname r.vorname klasse r.guid

/-- `impl From<RecordGastschueler> for RecordIserv`:
`let name = record.name.split(", ").collect();`
`let nachname = String::from(&name[0][1..]);`
`let vorname = name[1].split(" (G)").collect();`
Panics are threaded through `Except` in evaluation order. -/
def gastschuelerToIserv (corpus : List String)
    (choice : Fin 2 → Fin corpus.length) (r : RecordGastschueler) :
    Except RustPanic RecordIserv :=
  let name := splitComma r.name
  match vecIndex name 0 with
  | .error e => .error e
  | .ok part0 =>
    match sliceFrom1 part0 with
    | .error e => .error e
    | .ok nachname =>
      match vecIndex name 1 with
      | .error e => .error e
      | .ok part1 =>
        .ok (RecordIserv.new corpus choice nachname
          ⟨(splitG part1.data).flatten⟩ r.klasse r.schuelernr)

/-- `impl From<Record> for RecordIserv`: dispatch on the variant. -/
def recordToIserv (corpus : List String)
    (choice : Fin 2 → Fin corpus.length) :
    Record → Except RustPanic RecordIserv
  | .schild r => .ok (schildToIserv corpus choice r)
  | .gastschueler r => gastschuelerToIserv corpus choice r

/-- The normalization pass of `main`:
`r.into_iter().map(|r| r.into()).collect()`.  Each record draws its
own randomness, modelled by indexing `choices` with the row position;
a panic aborts the whole pass. -/
def processRecords (corpus : List String)
    (choices : Nat → Fin 2 → Fin corpus.length) :
    Nat → List Record → Except RustPanic (List RecordIserv)
  | _, [] => .ok []
  | i, r :: rs =>
    match recordToIserv corpus (choices i) r with
    | .error p => .error p
    | .ok rec =>
      match processRecords corpus choices (i + 1) rs with
      | .error p => .error p
      | .ok recs => .ok (rec :: recs)

/-- The row loop shared by `get_all_csv_records_in_file` and
`get_all_xlsx_records_in_file`: each row deserialization result is
unwrapped with `?`, so the first failure is returned for the whole
batch. `rows` is the sequence of per-row results produced by the
deserializer (an external library). -/
def collectRows {α : Type} :
    List (Except PipeError α) → Except PipeError (List α)
  | [] => .ok []
  | r :: rs =>
    match r with
    | .error e => .error e
    | .ok a =>
      match collectRows rs with
      | .error e => .error e
      | .ok as => .ok (a :: as)

/-- Modelled from the spec: serialization of one `RecordIserv` by the
csv writer (external library, `delimiter(b';')`) — the five fields
joined by `";"` (`§6`: semicolon-delimited output). -/
def serializeRecord (r : RecordIserv) : String :=
  String.intercalate ";" [r.nachname, r.vorname, r.klasse, r.import_id, r.password]

/-- Modelled from the spec: the header row the csv writer derives
from the serde field names of `RecordIserv`
(`rename_all = "PascalCase"`, `rename = "Import-ID"`). -/
def outputHeader : String :=
  "Nachname;Vorname;Klasse;Import-ID;Password"

/-- `write_records_to_file`, successful path: the header row followed
by one serialized row per record, in order. -/
def writeRecordsToFile (records : List RecordIserv) : List String :=
  outputHeader :: records.map serializeRecord

/-- Observable outcome of one run of `main`: either a normal exit
(exit code 0) with an optionally printed error and an optionally
written output file, or an aborted process (panic, non-zero exit). -/
inductive RunOutcome where
  | normalExit (printed : Option PipeError) (written : Option (List String))
  | panicked (p : RustPanic)
deriving DecidableEq, Repr

/-- The tail of `main` after `records` is obtained: an `Err` is
printed and the program ends normally; on `Ok` the records are
normalized (a panic aborts) and written; a write failure is printed
and the program ends normally. -/
def finishRun (corpus : List String)
    (choices : Nat → Fin 2 → Fin corpus.length)
    (records : Except PipeError (List Record)) (writeOk : Bool) : RunOutcome :=
  match records with
  | .error e => .normalExit (some e) none
  | .ok rs =>
    match processRecords corpus choices 0 rs with
    | .error p => .panicked p
    | .ok recs =>
      if writeOk then .normalExit none (some (writeRecordsToFile recs))
      else .normalExit (some .outputWrite) none

/-- `main` in CSV mode: `get_all_csv_records_in_file` opens the file
with `File::open(path).unwrap()` — an open failure panics — then
collects the rows; `main` finishes the run on the result. -/
def runCsvPipeline (corpus : List String)
    (choices : Nat → Fin 2 → Fin corpus.length) (openOk : Bool)
    (rows : List (Except PipeError Record)) (writeOk : Bool) : RunOutcome :=
  if openOk then finishRun corpus choices (collectRows rows) writeOk
  else .panicked .unwrapOnErr

/-- `main` in Excel mode: an `open_workbook` failure is returned with
`?` and reaches `main` as an `Err`; otherwise the rows are collected
as in CSV mode. -/
def runXlsxPipeline (corpus : List String)
    (choices : Nat → Fin 2 → Fin corpus.length)
    (openResult : Except PipeError (List (Except PipeError Record)))
    (writeOk : Bool) : RunOutcome :=
  match openResult with
  | .error e => finishRun corpus choices (.error e) writeOk
  | .ok rows => finishRun corpus choices (collectRows rows) writeOk

/-- The grade prefixes hard-coded in `From<RecordSchild>`. -/
def gradePrefixes : List String := ["11", "12", "13"]

/-- A two-word sample corpus used to instantiate witnesses. -/
def demoCorpus : List String := ["apfel", "birne"]

/-- A fixed draw for the sample corpus. -/
def demoChoice : Fin 2 → Fin demoCorpus.length := fun _ => ⟨0, by decide⟩

/-- A fixed per-row draw for the sample corpus. -/
def demoChoices : Nat → Fin 2 → Fin demoCorpus.length := fun _ => demoChoice

/-- A one-row sample batch. -/
def demoBatch : List Record :=
  [Record.schild ⟨"Mustermann", "Max", "11b", "g1"⟩]

/-- The normalization of `demoBatch` under the fixed draws. -/
def demoIservs : List RecordIserv :=
  [⟨"Mustermann", "Max", "11", "g1", "apfel-apfel"⟩]

/-! ## Helper lemmas -/

theorem splitSep_ne_nil (l : List Char) : splitSep l ≠ [] := by
  induction l using splitSep.induct with
  | case1 => simp [splitSep]
  | case2 rest ih => simp [splitSep]
  | case3 c rest h p ps hs ih => simp [splitSep.eq_3 c rest h, hs]
  | case4 c rest h hs ih => simp [splitSep.eq_3 c rest h, hs]

theorem splitSep_cons_of_ne (c : Char) (cs : List Char) (hc : c ≠ ',') :
    ∃ p ps, splitSep cs = p :: ps ∧ splitSep (c :: cs) = (c :: p) :: ps := by
  have h : ∀ rest_1 : List Char, c = ',' → cs = ' ' :: rest_1 → False :=
    fun _ hc' _ => hc hc'
  obtain ⟨p, ps, hs⟩ : ∃ p ps, splitSep cs = p :: ps := by
    cases hcs : splitSep cs with
    | nil => exact absurd hcs (splitSep_ne_nil cs)
    | cons p ps => exact ⟨p, ps, rfl⟩
  exact ⟨p, ps, hs, by rw [splitSep.eq_3 c cs h, hs]⟩

theorem splitG_ne_nil (l : List Char) : splitG l ≠ [] := by
  induction l using splitG.induct with
  | case1 => simp [splitG]
  | case2 rest ih => simp [splitG]
  | case3 c rest h p ps hs ih => simp [splitG.eq_3 c rest h, hs]
  | case4 c rest h hs ih => simp [splitG.eq_3 c rest h, hs]

/-- Splitting on `" (G)"` and concatenating the parts removes every
occurrence of `" (G)"`. -/
theorem flatten_splitG (l : List Char) : (splitG l).flatten = removeAllG l := by
  induction l using splitG.induct with
  | case1 => rfl
  | case2 rest ih => simpa [splitG, removeAllG] using ih
  | case3 c rest h p ps hs ih =>
    rw [splitG.eq_3 c rest h, hs, removeAllG.eq_3 c rest h]
    rw [hs] at ih
    simpa using ih
  | case4 c rest h hs ih => exact absurd hs (splitG_ne_nil rest)

theorem isPrefixOfChars_two {a b : Char} {l : List Char}
    (h : isPrefixOfChars [a, b] l = true) : ∃ rest, l = a :: b :: rest := by
  match l with
  | [] => simp [isPrefixOfChars] at h
  | [c] => simp [isPrefixOfChars] at h
  | c :: d :: rest =>
    simp only [isPrefixOfChars, Bool.and_eq_true, beq_iff_eq] at h
    exact ⟨rest, by rw [h.1, h.2.1]⟩

theorem sliceFrom1_ok {s t : String} (h : sliceFrom1 s = .ok t) :
    ∃ c rest, s.data = c :: rest ∧ charBytes c = 1 ∧ t = ⟨rest⟩ := by
  cases hd : s.data with
  | nil => simp [sliceFrom1, hd] at h
  | cons c rest =>
    by_cases hc : charBytes c = 1
    · refine ⟨c, rest, rfl, hc, ?_⟩
      simp [sliceFrom1, hd, hc] at h
      exact h.symm
    · simp [sliceFrom1, hd, hc] at h

theorem vecIndex_eq_ok {α : Type} {l : List α} {i : Nat} {a : α}
    (h : l[i]? = some a) : vecIndex l i = .ok a := by
  simp [vecIndex, h]

theorem vecIndex_ok_inv {α : Type} {l : List α} {i : Nat} {a : α}
    (h : vecIndex l i = .ok a) : l[i]? = some a := by
  unfold vecIndex at h
  cases hl : l[i]? with
  | none => simp [hl] at h
  | some b => simp [hl] at h; rw [h]

theorem string_append_data (a b : String) : (a ++ b).data = a.data ++ b.data := rfl

theorem sep_append_ne_empty (a b : String) : a ++ "-" ++ b ≠ "" := by
  intro h
  have hd := congrArg String.data h
  rw [string_append_data, string_append_data] at hd
  simp at hd

/-- The password built by `isitPassword` is two corpus entries,
verbatim, joined by `"-"`. -/
theorem isitPassword_decomp (corpus : List String)
    (choice : Fin 2 → Fin corpus.length) :
    ∃ i j : Fin corpus.length,
      isitPassword corpus choice = corpus.get i ++ "-" ++ corpus.get j := by
  refine ⟨choice 0, choice 1, ?_⟩
  have hofn : (List.ofFn fun i : Fin 2 => corpus.get (choice i))
      = [corpus.get (choice 0), corpus.get (choice 1)] := by
    simp [List.ofFn_succ]
  unfold isitPassword generatePassphrase
  rw [hofn]
  rfl

theorem startsWithStr_two {s : String} {a b : Char}
    (h : startsWithStr s ⟨[a, b]⟩ = true) : ∃ rest, s.data = a :: b :: rest :=
  isPrefixOfChars_two h

/-- A successful `processRecords` run keeps the batch length and maps
row `j` (counting from the start index) to output slot `j`. -/
theorem processRecords_ok {corpus : List String}
    {choices : Nat → Fin 2 → Fin corpus.length} (rs : List Record) :
    ∀ (i : Nat) (out : List RecordIserv),
      processRecords corpus choices i rs = .ok out →
      out.length = rs.length ∧
        ∀ j (hj : j < rs.length) (hj' : j < out.length),
          recordToIserv corpus (choices (i + j)) rs[j] = .ok out[j] := by
  induction rs with
  | nil =>
    intro i out h
    simp [processRecords] at h
    subst h
    exact ⟨rfl, fun j hj => by simp at hj⟩
  | cons r rest ih =>
    intro i out h
    unfold processRecords at h
    cases hr : recordToIserv corpus (choices i) r with
    | error p => rw [hr] at h; simp at h
    | ok rec =>
      rw [hr] at h
      cases hp : processRecords corpus choices (i + 1) rest with
      | error p => rw [hp] at h; simp at h
      | ok recs =>
        rw [hp] at h
        simp only [Except.ok.injEq] at h
        subst h
        obtain ⟨hlen, hpt⟩ := ih (i + 1) recs hp
        refine ⟨by simp [hlen], ?_⟩
        intro j hj hj'
        cases j with
        | zero => simpa using hr
        | succ k =>
          have hk : k < rest.length := by simpa using hj
          have hk' : k < recs.length := by simpa using hj'
          have hidx : i + (k + 1) = (i + 1) + k := by omega
          rw [hidx]
          simpa using hpt k hk hk'

/-- Every successfully normalized record carries the generated
password. -/
theorem recordToIserv_password {corpus : List String}
    {choice : Fin 2 → Fin corpus.length} {r : Record} {rec : RecordIserv}
    (h : recordToIserv corpus choice r = .ok rec) :
    rec.password = isitPassword corpus choice := by
  cases r with
  | schild s =>
    simp only [recordToIserv, Except.ok.injEq] at h
    rw [← h]
    rfl
  | gastschueler g =>
    simp only [recordToIserv, gastschuelerToIserv] at h
    cases h0 : vecIndex (splitComma g.name) 0 with
    | error e => simp [h0] at h
    | ok p0 =>
      simp only [h0] at h
      cases h1 : sliceFrom1 p0 with
      | error e => simp [h1] at h
      | ok nach =>
        simp only [h1] at h
        cases h2 : vecIndex (splitComma g.name) 1 with
        | error e => simp [h2] at h
        | ok p1 =>
          simp only [h2, Except.ok.injEq] at h
          rw [← h]
          rfl

/-- A combined name without the `", "` separator makes the
`RecordGastschueler` normalization panic. -/
theorem gast_missing_separator_panics {corpus : List String}
    {choice : Fin 2 → Fin corpus.length} {r : RecordGastschueler}
    (h : (splitComma r.name).length = 1) :
    ∃ e, gastschuelerToIserv corpus choice r = .error e := by
  obtain ⟨p, hp⟩ := List.length_eq_one.mp h
  cases hs : sliceFrom1 p with
  | error e =>
    exact ⟨e, by simp only [gastschuelerToIserv]; rw [hp]; simp [vecIndex, hs]⟩
  | ok nach =>
    exact ⟨.indexOutOfBounds, by
      simp only [gastschuelerToIserv]; rw [hp]; simp [vecIndex, hs]⟩

/-- A record that panics during normalization aborts the whole
normalization pass, wherever it sits in the batch. -/
theorem processRecords_append_error {corpus : List String}
    (choices : Nat → Fin 2 → Fin corpus.length) (r : Record)
    (hr : ∀ choice, ∃ e, recordToIserv corpus choice r = .error e) :
    ∀ (pre : List Record) (i : Nat),
      ∃ e, processRecords corpus choices i (pre ++ [r]) = .error e := by
  intro pre
  induction pre with
  | nil =>
    intro i
    obtain ⟨e, he⟩ := hr (choices i)
    exact ⟨e, by simp [processRecords, he]⟩
  | cons p ps ih =>
    intro i
    cases hp : recordToIserv corpus (choices i) p with
    | error e => exact ⟨e, by simp [processRecords, hp]⟩
    | ok rec =>
      obtain ⟨e, he⟩ := ih (i + 1)
      exact ⟨e, by simp [processRecords, hp, he]⟩

/-! ## Claim theorems -/

/-- C1: for every `RecordSchild`, normalization produces `klasse`
equal to the two-character grade prefix when the source `klasse`
starts with one of the configured prefixes (`"11"`, `"12"`, `"13"`),
and `klasse` unchanged otherwise; `import_id` equals the GUID and the
name fields pass through unchanged. -/
theorem schild_normalization_maps_fields (corpus : List String)
    (choice : Fin 2 → Fin corpus.length) (r : RecordSchild) :
    (∀ p, p ∈ gradePrefixes → startsWithStr r.klasse p = true →
        (schildToIserv corpus choice r).klasse = p)
  ∧ ((∀ p, p ∈ gradePrefixes → startsWithStr r.klasse p = false) →
        (schildToIserv corpus choice r).klasse = r.klasse)
  ∧ (schildToIserv corpus choice r).import_id = r.guid
  ∧ (schildToIserv corpus choice r).nachname = r.nachname
  ∧ (schildToIserv corpus choice r).vorname = r.vorname := by
  refine ⟨?_, ?_, rfl, rfl, rfl⟩
  · intro p hp hsw
    simp only [gradePrefixes, List.mem_cons, List.not_mem_nil, or_false] at hp
    rcases hp with h11 | h12 | h13
    · subst h11
      simp [schildToIserv, RecordIserv.new, hsw]
    · subst h12
      obtain ⟨rest, hrest⟩ := startsWithStr_two (s := r.klasse) (a := '1') (b := '2') hsw
      have h11f : startsWithStr r.klasse "11" = false := by
        simp [startsWithStr, hrest, isPrefixOfChars]
      simp [schildToIserv, RecordIserv.new, hsw, h11f]
    · subst h13
      obtain ⟨rest, hrest⟩ := startsWithStr_two (s := r.klasse) (a := '1') (b := '3') hsw
      have h11f : startsWithStr r.klasse "11" = false := by
        simp [startsWithStr, hrest, isPrefixOfChars]
      have h12f : startsWithStr r.klasse "12" = false := by
        simp [startsWithStr, hrest, isPrefixOfChars]
      simp [schildToIserv, RecordIserv.new, hsw, h11f, h12f]
  · intro hall
    have h11 := hall "11" (by simp [gradePrefixes])
    have h12 := hall "12" (by simp [gradePrefixes])
    have h13 := hall "13" (by simp [gradePrefixes])
    simp [schildToIserv, RecordIserv.new, h11, h12, h13]

/-- C1 witness: a `klasse` of `"11b"` is bucketed to `"11"`. -/
theorem schild_normalization_maps_fields_witness :
    (schildToIserv demoCorpus demoChoice
      ⟨"Mustermann", "Max", "11b", "g1"⟩).klasse = "11" :=
  (schild_normalization_maps_fields demoCorpus demoChoice
    ⟨"Mustermann", "Max", "11b", "g1"⟩).1 "11" (by decide) (by decide)

/-- C2 counterexample: a batch holding a `RecordGastschueler` whose
combined name has no `", "` separator is aborted whole by a panic —
no `MalformedNameError` value exists, the failing row is not reported
per-row, and the remaining valid rows produce no output. -/
theorem missing_separator_aborts_counterexample :
    processRecords demoCorpus demoChoices 0
        [Record.schild ⟨"A", "B", "11", "g1"⟩,
         Record.gastschueler ⟨"NoSeparator", "k", "n"⟩,
         Record.schild ⟨"C", "D", "12", "g2"⟩]
      = Except.error RustPanic.indexOutOfBounds := by decide

/-- C2 (amended): for every `RecordGastschueler` whose combined name
does not contain the separator `", "` (splitting yields one part),
normalization panics — indexing the missing second name part out of
bounds, or failing already on the surname byte slice — and the panic
aborts the whole normalization pass, wherever the row sits in the
batch. -/
theorem missing_separator_panics_and_aborts (corpus : List String)
    (choices : Nat → Fin 2 → Fin corpus.length) (r : RecordGastschueler)
    (pre : List Record) (i : Nat)
    (h : (splitComma r.name).length = 1) :
    (∃ e, gastschuelerToIserv corpus (choices i) r = .error e)
  ∧ (∃ e, processRecords corpus choices i
        (pre ++ [Record.gastschueler r]) = .error e) := by
  refine ⟨gast_missing_separator_panics h, ?_⟩
  exact processRecords_append_error choices (Record.gastschueler r)
    (fun choice => by
      obtain ⟨e, he⟩ := @gast_missing_separator_panics corpus choice r h
      exact ⟨e, by simpa [recordToIserv] using he⟩) pre i

/-- C2 witness: the one-part name `"Mueller"` makes the normalization
of its row and of its batch fail. -/
theorem missing_separator_panics_and_aborts_witness :
    (∃ e, gastschuelerToIserv demoCorpus (demoChoices 0)
        ⟨"Mueller", "k", "n"⟩ = .error e)
  ∧ (∃ e, processRecords demoCorpus demoChoices 0
        ([] ++ [Record.gastschueler ⟨"Mueller", "k", "n"⟩]) = .error e) :=
  missing_separator_panics_and_aborts demoCorpus demoChoices
    ⟨"Mueller", "k", "n"⟩ [] 0 (by decide)

/-- C3 counterexample: for the combined name `"Müller, Anna (G)"` the
code yields surname `"üller"` — the first character of the name is
stripped — not the claimed `"Müller"`. -/
theorem mueller_anna_surname_counterexample :
    (gastschuelerToIserv demoCorpus demoChoice
        ⟨"Müller, Anna (G)", "11", "7"⟩).map RecordIserv.nachname
      = Except.ok "üller"
    ∧ ("üller" : String) ≠ "Müller" := by
  exact ⟨rfl, by decide⟩

/-- C3 (amended): for the combined name `"Müller, Anna (G)"`,
normalization produces surname `"üller"` (the code removes the first
character of the first part — here the first letter of the name, as
no marker character is present) and given name `"Anna"` (guest suffix
stripped). -/
theorem mueller_anna_normalized_values :
    (gastschuelerToIserv demoCorpus demoChoice
        ⟨"Müller, Anna (G)", "11", "7"⟩).map
        (fun rec => (rec.nachname, rec.vorname))
      = Except.ok ("üller", "Anna") := rfl

/-- C4 counterexample: the guest marker `" (G)"` is removed even when
it is not trailing: the second part `"b (G)c"` becomes `"bc"`, not
the claimed unchanged `"b (G)c"`. -/
theorem guest_marker_not_only_trailing_counterexample :
    (gastschuelerToIserv demoCorpus demoChoice
        ⟨"Xa, b (G)c", "k", "n"⟩).map RecordIserv.vorname
      = Except.ok "bc"
    ∧ ("bc" : String) ≠ "b (G)c" := by
  exact ⟨rfl, by decide⟩

/-- C4 (amended): for every `RecordGastschueler` whose combined name
contains the separator `", "` (with a non-empty first part beginning
with a single-byte character), the name is split on every occurrence
of `", "` and parts beyond the second are ignored; the surname is the
first part with its first character removed, the given name is the
second part with every occurrence of `" (G)"` removed (not only a
trailing one), and `klasse` and `import_id` pass through from
`klasse` and `schuelernr`. -/
theorem gastschueler_normalization_maps_fields (corpus : List String)
    (choice : Fin 2 → Fin corpus.length) (r : RecordGastschueler)
    (c : Char) (p0rest : List Char) (p1 : String)
    (h0 : (splitComma r.name)[0]? = some ⟨c :: p0rest⟩)
    (hc : charBytes c = 1)
    (h1 : (splitComma r.name)[1]? = some p1) :
    gastschuelerToIserv corpus choice r =
      .ok (RecordIserv.new corpus choice ⟨p0rest⟩ ⟨removeAllG p1.data⟩
        r.klasse r.schuelernr) := by
  have v0 := vecIndex_eq_ok h0
  have v1 := vecIndex_eq_ok h1
  simp [gastschuelerToIserv, v0, v1, sliceFrom1, hc, flatten_splitG]

/-- C4 witness: `"Xab, Cd (G)"` is normalized to surname `"ab"` and
given name `"Cd"`. -/
theorem gastschueler_normalization_maps_fields_witness :
    gastschuelerToIserv demoCorpus demoChoice ⟨"Xab, Cd (G)", "k", "n"⟩ =
      .ok (RecordIserv.new demoCorpus demoChoice ⟨['a', 'b']⟩
        ⟨removeAllG "Cd (G)".data⟩ "k" "n") :=
  gastschueler_normalization_maps_fields demoCorpus demoChoice
    ⟨"Xab, Cd (G)", "k", "n"⟩ 'X' ['a', 'b'] "Cd (G)"
    (by decide) (by decide) (by decide)

/-- C5 counterexample: a row whose fields cannot be parsed is not
skipped: the first row error is returned for the whole batch, so the
valid rows around it are discarded instead of appearing in the
output. -/
theorem row_decode_error_aborts_batch_counterexample :
    collectRows [Except.ok (Record.schild ⟨"A", "B", "11", "g1"⟩),
        Except.error PipeError.rowDecode,
        Except.ok (Record.schild ⟨"C", "D", "12", "g2"⟩)]
      = Except.error PipeError.rowDecode
    ∧ collectRows [Except.ok (Record.schild ⟨"A", "B", "11", "g1"⟩),
        Except.error PipeError.rowDecode,
        Except.ok (Record.schild ⟨"C", "D", "12", "g2"⟩)]
      ≠ Except.ok [Record.schild ⟨"A", "B", "11", "g1"⟩,
        Record.schild ⟨"C", "D", "12", "g2"⟩] := by
  exact ⟨by decide, by decide⟩

/-- C5 (amended): the row loops of `get_all_csv_records_in_file` and
`get_all_xlsx_records_in_file` stop at the first row whose fields
cannot be parsed: its error is returned for the whole batch and every
other row — before or after it — is discarded, so no records reach
the output. -/
theorem first_row_error_discards_batch {α : Type} (pre : List α)
    (e : PipeError) (rest : List (Except PipeError α)) :
    collectRows (pre.map Except.ok ++ Except.error e :: rest)
      = Except.error e := by
  induction pre with
  | nil => rfl
  | cons a as ih => simp [collectRows, ih]

/-- C6: every generated password is exactly two words, each taken
verbatim from the word corpus (no capitalization transformation),
joined by the fixed separator `"-"`. -/
theorem password_is_two_corpus_words (corpus : List String)
    (choice : Fin 2 → Fin corpus.length) :
    ∃ i j : Fin corpus.length,
      isitPassword corpus choice = corpus.get i ++ "-" ++ corpus.get j :=
  isitPassword_decomp corpus choice

/-- C7 counterexample: a `RecordSchild` with all fields empty is
normalized successfully, and the resulting surname is empty — the
five output fields are not all non-empty. -/
theorem empty_source_fields_counterexample :
    (recordToIserv demoCorpus demoChoice
        (Record.schild ⟨"", "", "", ""⟩)).map RecordIserv.nachname
      = Except.ok "" := rfl

/-- C7 (amended): for every source record on which normalization
succeeds, the password field of the result is non-empty; the other
four fields are copied or sliced from the source without any
non-emptiness validation and may be empty. -/
theorem password_nonempty_on_success (corpus : List String)
    (choice : Fin 2 → Fin corpus.length) (r : Record) (rec : RecordIserv)
    (h : recordToIserv corpus choice r = .ok rec) : rec.password ≠ "" := by
  rw [recordToIserv_password h]
  obtain ⟨i, j, hd⟩ := isitPassword_decomp corpus choice
  rw [hd]
  exact sep_append_ne_empty _ _

/-- C7 witness: a concrete normalized record has a non-empty
password. -/
theorem password_nonempty_on_success_witness :
    (schildToIserv demoCorpus demoChoice ⟨"A", "B", "C", "D"⟩).password ≠ "" :=
  password_nonempty_on_success demoCorpus demoChoice
    (Record.schild ⟨"A", "B", "C", "D"⟩) _ rfl

/-- C8: when normalization of the whole batch succeeds, the output
starts with the header row of canonical column names, has exactly one
data row per input record, and row `j + 1` serializes the
normalization of input record `j` — the input order is preserved. -/
theorem output_header_rows_order (corpus : List String)
    (choices : Nat → Fin 2 → Fin corpus.length)
    (rs : List Record) (out : List RecordIserv)
    (h : processRecords corpus choices 0 rs = .ok out) :
    (writeRecordsToFile out).head? = some outputHeader
  ∧ (writeRecordsToFile out).length = rs.length + 1
  ∧ ∀ j (hj : j < rs.length), ∃ rec,
      recordToIserv corpus (choices j) rs[j] = .ok rec
      ∧ (writeRecordsToFile out)[j + 1]? = some (serializeRecord rec) := by
  obtain ⟨hlen, hpt⟩ := processRecords_ok rs 0 out h
  refine ⟨rfl, by simp [writeRecordsToFile, hlen], ?_⟩
  intro j hj
  have hj' : j < out.length := by omega
  refine ⟨out[j], by simpa using hpt j hj hj', ?_⟩
  have hsome : out[j]? = some out[j] := List.getElem?_eq_getElem hj'
  simp [writeRecordsToFile, List.getElem?_map, hsome]

/-- C8 witness: the one-row sample batch yields a header plus one
data row. -/
theorem output_header_rows_order_witness :
    (writeRecordsToFile demoIservs).head? = some outputHeader
  ∧ (writeRecordsToFile demoIservs).length = demoBatch.length + 1 :=
  ⟨(output_header_rows_order demoCorpus demoChoices demoBatch demoIservs
      (by decide)).1,
   (output_header_rows_order demoCorpus demoChoices demoBatch demoIservs
      (by decide)).2.1⟩

/-- C9 counterexample: a row-decode error propagates to the top level
and the process then exits normally (exit code 0, no failure
indication), writing no output — the claim allows only source-open
and output-write failures at the top level and requires a non-zero
termination for them. -/
theorem row_decode_error_exit_zero_counterexample :
    runCsvPipeline demoCorpus demoChoices true
        [Except.error PipeError.rowDecode,
         Except.ok (Record.schild ⟨"A", "B", "11", "g"⟩)] true
      = RunOutcome.normalExit (some PipeError.rowDecode) none := by decide

/-- C9 (amended): every error value the pipeline produces — xlsx
source-open, row-decode, output-write — reaches the top level, where
`main` prints it and the process exits normally (exit code 0) without
output; only panics terminate abnormally: a CSV source-open failure
(`unwrap`) and normalization panics. -/
theorem top_level_error_outcomes (corpus : List String)
    (choices : Nat → Fin 2 → Fin corpus.length)
    (rows : List (Except PipeError Record)) (writeOk : Bool) :
    runCsvPipeline corpus choices false rows writeOk
        = .panicked .unwrapOnErr
  ∧ (∀ e, runXlsxPipeline corpus choices (.error e) writeOk
        = .normalExit (some e) none)
  ∧ (∀ e, collectRows rows = .error e →
        runCsvPipeline corpus choices true rows writeOk
          = .normalExit (some e) none)
  ∧ (∀ rs p, collectRows rows = .ok rs →
        processRecords corpus choices 0 rs = .error p →
        runCsvPipeline corpus choices true rows writeOk = .panicked p)
  ∧ (∀ rs recs, collectRows rows = .ok rs →
        processRecords corpus choices 0 rs = .ok recs →
        runCsvPipeline corpus choices true rows writeOk =
          if writeOk then .normalExit none (some (writeRecordsToFile recs))
          else .normalExit (some .outputWrite) none) := by
  refine ⟨rfl, fun e => rfl, ?_, ?_, ?_⟩
  · intro e he
    simp [runCsvPipeline, finishRun, he]
  · intro rs p h1 h2
    simp [runCsvPipeline, finishRun, h1, h2]
  · intro rs recs h1 h2
    simp [runCsvPipeline, finishRun, h1, h2]

/-- C9 witness: a batch whose guest row lacks the separator makes the
CSV run abort with a panic. -/
theorem top_level_error_outcomes_witness :
    runCsvPipeline demoCorpus demoChoices true
        [Except.ok (Record.gastschueler ⟨"NoSep", "k", "n"⟩)] true
      = RunOutcome.panicked RustPanic.indexOutOfBounds :=
  (top_level_error_outcomes demoCorpus demoChoices
      [Except.ok (Record.gastschueler ⟨"NoSep", "k", "n"⟩)] true).2.2.2.1
    [Record.gastschueler ⟨"NoSep", "k", "n"⟩] RustPanic.indexOutOfBounds
    (by decide) (by decide)

/-- C10: `RecordGastschueler` normalization returns a record only
when the first part of the combined name split on `", "` is non-empty
and begins with a single-byte character; when the combined name
starts with a multi-byte character, or the first part is empty, the
surname byte-slice panics instead of producing a record or an error
value. -/
theorem gast_success_requires_ascii_first_part (corpus : List String)
    (choice : Fin 2 → Fin corpus.length) (r : RecordGastschueler) :
    (∀ rec, gastschuelerToIserv corpus choice r = .ok rec →
        ∃ c rest, (splitComma r.name)[0]? = some ⟨c :: rest⟩
          ∧ charBytes c = 1)
  ∧ (∀ c cs, r.name.data = c :: cs → charBytes c ≠ 1 →
        gastschuelerToIserv corpus choice r = .error .notCharBoundary)
  ∧ ((splitComma r.name)[0]? = some "" →
        gastschuelerToIserv corpus choice r = .error .byteIndexOutOfBounds) := by
  refine ⟨?_, ?_, ?_⟩
  · intro rec h
    simp only [gastschuelerToIserv] at h
    cases h0 : vecIndex (splitComma r.name) 0 with
    | error e => simp [h0] at h
    | ok p0 =>
      simp only [h0] at h
      cases h1 : sliceFrom1 p0 with
      | error e => simp [h1] at h
      | ok nach =>
        obtain ⟨c, rest, hd, hc, _⟩ := sliceFrom1_ok h1
        have hp0 : (splitComma r.name)[0]? = some p0 := vecIndex_ok_inv h0
        refine ⟨c, rest, ?_, hc⟩
        rw [hp0]
        cases p0 with
        | mk dat =>
          have hd' : dat = c :: rest := hd
          rw [hd']
  · intro c cs hname hc
    have hcomma : c ≠ ',' := by
      intro heq
      subst heq
      exact hc (by decide)
    obtain ⟨p, ps, hsplit, hcons⟩ := splitSep_cons_of_ne c cs hcomma
    have hsc : splitComma r.name = ⟨c :: p⟩ :: ps.map (fun l => ⟨l⟩) := by
      simp [splitComma, hname, hcons]
    simp [gastschuelerToIserv, hsc, vecIndex, sliceFrom1, hc]
  · intro h0
    have h0' : (splitComma r.name)[0]? = some ⟨[]⟩ := h0
    have v0 := vecIndex_eq_ok h0'
    simp [gastschuelerToIserv, v0, sliceFrom1]

/-- C10 witness: a combined name starting with the two-byte character
`'Ä'` makes normalization panic on the surname slice. -/
theorem gast_success_requires_ascii_first_part_witness :
    gastschuelerToIserv demoCorpus demoChoice ⟨"Ärger, A", "k", "n"⟩
      = Except.error RustPanic.notCharBoundary :=
  (gast_success_requires_ascii_first_part demoCorpus demoChoice
      ⟨"Ärger, A", "k", "n"⟩).2.1 'Ä' "rger, A".data (by decide) (by decide)
